import Mathlib

/-!
Verification development for the roundel transit-simulation repository.

The simulation core is embedded shallowly over exact rationals: `f32`/`f64`
values become `ℚ`, fallible operations (Rust panics on out-of-bounds
indexing) become `Option`, and the mutable per-tick loops become explicit
state-passing functions.  Definitions mirror the Rust sources named in the
doc comments.  Definitions come first, followed by the theorems.
-/

namespace Roundel

/-- Vehicle type tag (src/roundel-wb-sim/src/model/vehicle.rs, also
src/sim/src/model/vehicle.rs and src/map/src/app/simulation/model.rs). -/
inductive VehicleType where
  | Bus
  | Train
deriving DecidableEq, Repr

/-- A route: a sequence of station coordinates (x, y)
(src/sim/src/model/route.rs, src/roundel-wb-sim/src/model/route.rs). -/
structure Route where
  stations : List (ℚ × ℚ)
deriving DecidableEq, Repr

/-- The vehicle record (src/roundel-wb-sim/src/model/vehicle.rs; the struct in
src/sim/src/model/vehicle.rs is textually identical).  `f32` fields are
embedded as `ℚ`, `i8` as `ℤ`, `usize` as `ℕ`. -/
structure Vehicle where
  vehicle_type : VehicleType
  route_index : ℕ
  direction : ℤ
  last_station : ℕ
  next_station : ℕ
  fraction : ℚ
  speed : ℚ
  x : ℚ
  y : ℚ
deriving DecidableEq, Repr

/-- The Rust cast `i32value as usize` on the wasm32 target (32-bit `usize`):
two's-complement reinterpretation, i.e. reduction modulo `2 ^ 32`. -/
def i32AsUsize (n : ℤ) : ℕ := (n % (2 ^ 32)).toNat

/-- One iteration of the `while self.fraction >= 1.0` body in
`Vehicle::update_position` (src/roundel-wb-sim/src/model/vehicle.rs lines
26-34), excluding the fraction decrement: `last_station = next_station`;
flip `direction` when `next_station + direction` falls outside
`0..route.stations.len()`; then `next_station = last_station + direction`
(cast `as usize`).  Returns `(direction, last_station, next_station)`. -/
def loopStep (len : ℕ) (direction : ℤ) (next_station : ℕ) : ℤ × ℕ × ℕ :=
  let last' := next_station
  let next : ℤ := (next_station : ℤ) + direction
  let direction' : ℤ :=
    if next < 0 ∨ (len : ℤ) ≤ next then -direction else direction
  let next' : ℕ := i32AsUsize ((last' : ℤ) + direction')
  (direction', last', next')

/-- The full `while self.fraction >= 1.0` loop of `Vehicle::update_position`:
repeatedly subtract `1.0` from the fraction and advance the station indices
by `loopStep`.  Returns `(fraction, direction, last_station, next_station)`. -/
def updateLoop (len : ℕ) (fraction : ℚ) (direction : ℤ)
    (last_station next_station : ℕ) : ℚ × ℤ × ℕ × ℕ :=
  if h : 1 ≤ fraction then
    let s := loopStep len direction next_station
    updateLoop len (fraction - 1) s.1 s.2.1 s.2.2
  else
    (fraction, direction, last_station, next_station)
termination_by (⌈fraction⌉).toNat
decreasing_by
  have h1 : (0 : ℚ) < fraction := lt_of_lt_of_le zero_lt_one h
  have h2 : (0 : ℤ) < ⌈fraction⌉ := Int.ceil_pos.mpr h1
  have h3 : ⌈fraction - 1⌉ = ⌈fraction⌉ - 1 := by
    exact_mod_cast Int.ceil_sub_int fraction 1
  rw [h3]
  omega

/-- `Vehicle::update_position` (src/roundel-wb-sim/src/model/vehicle.rs lines
22-40): add `speed` to `fraction`, normalise by the while loop, then set
`(x, y)` by linear interpolation between the last and next stations.  The
final station indexing panics in Rust when out of bounds; this is modelled
by returning `none`. -/
def Vehicle.update_position (v : Vehicle) (route : Route) : Option Vehicle :=
  let r := updateLoop route.stations.length (v.fraction + v.speed)
    v.direction v.last_station v.next_station
  match route.stations[r.2.2.1]?, route.stations[r.2.2.2]? with
  | some (x1, y1), some (x2, y2) =>
      some { v with
        fraction := r.1
        direction := r.2.1
        last_station := r.2.2.1
        next_station := r.2.2.2
        x := x1 + (x2 - x1) * r.1
        y := y1 + (y2 - y1) * r.1 }
  | _, _ => none

/-- Iterated `update_position` calls: one call per route in the list,
propagating the panic case (`SharedState::update_all` performs one such call
per tick for each vehicle). -/
def iterateUpdates (v : Vehicle) : List Route → Option Vehicle
  | [] => some v
  | r :: rs =>
      match v.update_position r with
      | some v' => iterateUpdates v' rs
      | none => none

/-- Global simulation state (src/sim/src/model/state.rs lines 11-17). -/
structure SharedState where
  routes : List Route
  vehicles : List Vehicle
  debug_mode : Bool
deriving DecidableEq, Repr

/-- Per-vehicle pass of `SharedState::update_all` (src/sim/src/model/state.rs
lines 278-286): each vehicle whose `route_index` is in bounds is advanced by
`update_position` against its route; any other vehicle is skipped.  A panic
inside `update_position` is propagated as `none`. -/
def updateVehicles (routes : List Route) : List Vehicle → Option (List Vehicle)
  | [] => some []
  | v :: vs =>
      let v' :=
        if h : v.route_index < routes.length then
          v.update_position (routes.get ⟨v.route_index, h⟩)
        else
          some v
      match v', updateVehicles routes vs with
      | some w, some ws => some (w :: ws)
      | _, _ => none

/-- `SharedState::update_all` (src/sim/src/model/state.rs lines 278-286). -/
def SharedState.update_all (s : SharedState) : Option SharedState :=
  (updateVehicles s.routes s.vehicles).map fun vs => { s with vehicles := vs }

/-- Vehicle counts by type (src/sim/src/ui/control.rs lines 18-22). -/
structure VehicleCounts where
  buses : ℕ
  trains : ℕ
  total : ℕ
deriving DecidableEq, Repr

/-- `SimulationControl` (src/sim/src/ui/control.rs lines 7-14). -/
structure SimulationControl where
  paused : Bool
  update_interval_ms : ℕ
  auto_adjust : Bool
  frame_count : ℕ
  total_frame_time : ℚ
  vehicle_counts : VehicleCounts
deriving DecidableEq, Repr

/-- The two thread-local cells of the sim crate that `toggle_pause` can see:
`GLOBAL_STATE` and `SIMULATION_CONTROL`. -/
structure SimApp where
  global_state : SharedState
  simulation_control : SimulationControl
deriving DecidableEq, Repr

/-- `toggle_pause` (src/sim/src/ui/core.rs lines 309-316): flip
`control.paused` and return the new value. -/
def toggle_pause (app : SimApp) : Bool × SimApp :=
  let control :=
    { app.simulation_control with paused := !app.simulation_control.paused }
  (control.paused, { app with simulation_control := control })

/-- State of the tick scheduler (src/sim/src/ui/core.rs): the set of interval
tasks currently installed in the browser window (`live`, in creation order,
with fresh ids handed out by `next_id`), the `ANIMATION_INTERVAL_ID`
`OnceCell` (`interval_cell`), and `SimulationControl.update_interval_ms`. -/
structure TickScheduler where
  live : List ℕ
  next_id : ℕ
  interval_cell : Option ℕ
  update_interval_ms : ℕ
deriving DecidableEq, Repr

/-- `window.set_interval_with_callback_...`: installs a repeating task and
returns its fresh id. -/
def set_interval (s : TickScheduler) : ℕ × TickScheduler :=
  (s.next_id, { s with live := s.live ++ [s.next_id], next_id := s.next_id + 1 })

/-- `window.clear_interval_with_handle`: cancels the task with the given id
(a no-op when no such task is installed). -/
def clear_interval (s : TickScheduler) (id : ℕ) : TickScheduler :=
  { s with live := s.live.erase id }

/-- `OnceCell::set` semantics: the write succeeds only when the cell is still
empty; `start_animation_loop` discards the `Result` (`let _ = ...set(...)`). -/
def once_cell_set (cell : Option ℕ) (v : ℕ) : Option ℕ :=
  match cell with
  | none => some v
  | some w => some w

/-- `start_animation_loop` (src/sim/src/ui/core.rs lines 182-282): installs a
new repeating interval task and attempts to store its id in the
`ANIMATION_INTERVAL_ID` `OnceCell`. -/
def start_animation_loop (s : TickScheduler) : TickScheduler :=
  let p := set_interval s
  { p.2 with interval_cell := once_cell_set p.2.interval_cell p.1 }

/-- `change_animation_interval` (src/sim/src/ui/core.rs lines 286-305): store
the new interval value, and if the `OnceCell` holds an id, clear that id and
start a new animation loop. -/
def change_animation_interval (s : TickScheduler) (new_interval_ms : ℕ) :
    TickScheduler :=
  let s1 := { s with update_interval_ms := new_interval_ms }
  match s1.interval_cell with
  | some old_id => start_animation_loop (clear_interval s1 old_id)
  | none => s1

/-- World→screen transform, per axis (src/sim/src/ui/draw.rs lines 107-108:
`(v.x - pan_x) * scale`). -/
def world_to_screen (pan scale p : ℚ) : ℚ := (p - pan) * scale

/-- Screen→world transform, per axis
(src/sim/src/ui/input/vehicle_selection.rs lines 40-41:
`click_x / scale + pan_x`). -/
def screen_to_world (pan scale p : ℚ) : ℚ := p / scale + pan

/-- One wheel event (src/sim/src/ui/input/camera_control.rs lines 99-124):
multiply `scale` by 1.1 when `delta < 0` (zoom in) and by 0.9 otherwise,
then clamp to `[0.1, 50.0]`. -/
def wheel_zoom (scale delta : ℚ) : ℚ :=
  let s := if delta < 0 then scale * 1.1 else scale * 0.9
  if s < 0.1 then 0.1 else if s > 50 then 50 else s

/-- A sequence of wheel events applied in order. -/
def apply_wheel_events (scale : ℚ) (deltas : List ℚ) : ℚ :=
  deltas.foldl wheel_zoom scale

/-- Squared world-space distance from a vehicle to the picked world point
(src/sim/src/ui/input/vehicle_selection.rs lines 50-52). -/
def distSq (wx wy : ℚ) (v : Vehicle) : ℚ :=
  (v.x - wx) * (v.x - wx) + (v.y - wy) * (v.y - wy)

/-- The vehicle scan of the click handler
(src/sim/src/ui/input/vehicle_selection.rs lines 44-63): iterate over the
vehicles with their indices, keeping `(closest_index, closest_dist)`; a
vehicle replaces the current best iff its squared distance is below
`threshold²` and below the current best.  The initial `closest_dist` of
`f32::MAX` acts as +∞ and is modelled by `none`. -/
def scanVehicles (threshold wx wy : ℚ) :
    List Vehicle → ℕ → Option (ℕ × ℚ) → Option (ℕ × ℚ)
  | [], _, best => best
  | v :: rest, i, best =>
      let dist_sq := distSq wx wy v
      let qualifies : Bool :=
        match best with
        | none => decide (dist_sq < threshold * threshold)
        | some b => decide (dist_sq < threshold * threshold ∧ dist_sq < b.2)
      if qualifies then scanVehicles threshold wx wy rest (i + 1) (some (i, dist_sq))
      else scanVehicles threshold wx wy rest (i + 1) best

/-- Full pick operation of the click handler: convert the click point to
world space via the camera, scan all vehicles with a selection threshold of
`10.0 / scale`, and store the winning index (or `none`, clearing the
selection) in `cam.selected_vehicle_index`. -/
def pick_vehicle (vehicles : List Vehicle)
    (pan_x pan_y scale click_x click_y : ℚ) : Option ℕ :=
  let world_x := click_x / scale + pan_x
  let world_y := click_y / scale + pan_y
  let selection_threshold := 10 / scale
  (scanVehicles selection_threshold world_x world_y vehicles 0 none).map Prod.fst

/-- Qualification predicate of the scan: a squared distance beats the
threshold and the current best. -/
def Qual (threshold : ℚ) (best : Option (ℕ × ℚ)) (d : ℚ) : Prop :=
  d < threshold * threshold ∧ ∀ b ∈ best, d < b.2

end Roundel

namespace Roundel.MapSim

open Roundel

/-- The map crate's vehicle record (src/map/src/app/simulation/model.rs lines
13-26). -/
structure Vehicle where
  id : ℕ
  vehicle_type : VehicleType
  route_index : ℕ
  line_id : String
  position : ℚ
  speed : ℚ
  direction : ℤ
  last_station : ℕ
  next_station : ℕ
  lng : ℚ
  lat : ℚ
deriving DecidableEq, Repr

/-- The map crate's route record (src/map/src/app/simulation/model.rs lines
28-35). -/
structure Route where
  id : ℕ
  name : String
  line_id : String
  vehicle_type : VehicleType
  stations : List (ℚ × ℚ)
deriving DecidableEq, Repr

/-- `SimulationState` (src/map/src/app/simulation/state.rs lines 6-12). -/
structure SimulationState where
  vehicles : List Vehicle
  routes : List Route
  is_paused : Bool
  animation_frame_id : Option ℤ
deriving DecidableEq, Repr

/-- `toggle_pause` (src/map/src/app/simulation/state.rs lines 48-54): flip
`is_paused` and return the new value. -/
def toggle_pause (st : SimulationState) : Bool × SimulationState :=
  let st' := { st with is_paused := !st.is_paused }
  (st'.is_paused, st')

/-- The fields of `tb8::Prediction` (src/map/src/tb8/mod.rs lines 174-200)
read by `build_real_time_vehicles`: `vehicle_id`, `line_id`,
`time_to_station : Option<i32>` (embedded as `Option ℤ`) and
`current_location`. -/
structure Prediction where
  vehicle_id : Option String
  line_id : Option String
  time_to_station : Option ℤ
  current_location : Option String
deriving DecidableEq, Repr

/-- `HashMap::get`/`contains_key` on the embedding of the vehicle map as an
association list: the first entry with the given key. -/
def find_entry (m : List (String × Prediction)) (k : String) :
    Option Prediction :=
  match m with
  | [] => none
  | e :: rest => if e.1 = k then some e.2 else find_entry rest k

/-- `HashMap::insert` on an existing key: replace the entry in place. -/
def replace_entry (m : List (String × Prediction)) (k : String)
    (p : Prediction) : List (String × Prediction) :=
  m.map fun e => if e.1 = k then (k, p) else e

/-- One step of the vehicle-id deduplication of `build_real_time_vehicles`
(src/map/src/app/simulation/model.rs lines 288-302): skip predictions
lacking a vehicle id or a time-to-station; otherwise insert the prediction,
replacing an existing entry for this vehicle id only when the new
time-to-station is strictly smaller (the `unwrap`s are modelled by `getD 0`,
reachable only when the guarded fields are present). -/
def vehicle_map_step (m : List (String × Prediction)) (p : Prediction) :
    List (String × Prediction) :=
  if p.vehicle_id.isNone || p.time_to_station.isNone then m
  else
    let vid := p.vehicle_id.getD ""
    match find_entry m vid with
    | none => m ++ [(vid, p)]
    | some q =>
        if p.time_to_station.getD 0 < q.time_to_station.getD 0 then
          replace_entry m vid p
        else m

/-- The deduplication map built from one line's prediction list
(`vehicle_map` in src/map/src/app/simulation/model.rs lines 286-302). -/
def build_vehicle_map (predictions : List Prediction) :
    List (String × Prediction) :=
  predictions.foldl vehicle_map_step []

/-- Specification of one deduplicated entry for vehicle id `vid`: the stored
prediction carries that id and a time-to-station, it is minimal in
time-to-station among the predictions with that id, and it is the first
prediction attaining the minimum (every prediction of that id occurring
before it is strictly slower). -/
def EntrySpec (preds : List Prediction) (vid : String) (p : Prediction) :
    Prop :=
  p.vehicle_id = some vid ∧ p.time_to_station.isSome = true
  ∧ (∃ l1 l2, preds = l1 ++ p :: l2
      ∧ ∀ q ∈ l1, q.vehicle_id = some vid →
          ∀ tq ∈ q.time_to_station, ∀ tp ∈ p.time_to_station, tp < tq)
  ∧ ∀ q ∈ preds, q.vehicle_id = some vid →
      ∀ tq ∈ q.time_to_station, ∀ tp ∈ p.time_to_station, tp ≤ tq

/-- `get_vehicle_type_for_line` (src/map/src/data/api.rs lines 75-87). -/
def get_vehicle_type_for_line (line_id : String) : VehicleType :=
  if line_id = "dlr" then .Train
  else if line_id = "elizabeth" then .Train
  else if line_id = "london-cable-car" then .Train
  else if line_id ∈ ["waterloo-city", "victoria", "piccadilly", "northern",
      "metropolitan", "jubilee", "hammersmith-city", "district", "circle",
      "central", "bakerloo"] then .Train
  else if line_id ∈ ["thameslink", "tram"] then .Train
  else if line_id ∈ ["liberty", "lioness", "mildmay", "suffragette",
      "weaver", "windrush"] then .Train
  else .Bus

/-- `primary_lines` (src/map/src/app/simulation/model.rs lines 271-275). -/
def primary_lines : List String :=
  ["victoria", "piccadilly", "northern", "jubilee", "central",
   "district", "bakerloo", "waterloo-city", "circle", "hammersmith-city",
   "metropolitan", "dlr", "elizabeth", "tram"]

/-- Conversion of one deduplicated prediction to a vehicle
(src/map/src/app/simulation/model.rs lines 305-351): skip when `line_id`,
`time_to_station` or `current_location` is missing; place the vehicle at a
jittered London-centre position (`rand` is the `Math.random()` draw) and
convert the time-to-station into a progress fraction over a 600 s horizon. -/
def prediction_to_vehicle (id_counter : ℕ) (rand : ℚ) (p : Prediction) :
    Option Vehicle :=
  if p.line_id.isNone || p.time_to_station.isNone
      || p.current_location.isNone then none
  else
    let base_lon : ℚ := -0.1278
    let base_lat : ℚ := 51.5074
    let random_offset := (rand - 0.5) * 0.1
    let lon := base_lon + random_offset
    let lat := base_lat + random_offset
    let time_to_station : ℚ := ((p.time_to_station.getD 0 : ℤ) : ℚ)
    let max_time : ℚ := 600
    let position := (max_time - min time_to_station max_time) / max_time
    let direction : ℤ := 1
    let line_id := p.line_id.getD ""
    some { id := id_counter, vehicle_type := get_vehicle_type_for_line line_id,
           route_index := 0, line_id := line_id, position := position,
           speed := 0.01, direction := direction, last_station := 0,
           next_station := 1, lng := lon, lat := lat }

/-- `build_real_time_vehicles` (src/map/src/app/simulation/model.rs lines
261-375) as a pure function of the per-line fetch outcome (`fetch`) and the
`Math.random()` stream (`rand`, one draw per converted vehicle, indexed by
the id counter): per tracked line, deduplicate the fetched predictions by
vehicle id and convert each surviving prediction; a fetch failure skips the
line; zero vehicles overall is an error (triggering the fallback tier). -/
def build_real_time_vehicles
    (fetch : String → Except String (List Prediction)) (rand : ℕ → ℚ) :
    Except String (List Vehicle) :=
  let vehicles := primary_lines.foldl
    (fun acc line_id =>
      match fetch line_id with
      | .error _ => acc
      | .ok predictions =>
          (build_vehicle_map predictions).foldl
            (fun acc2 entry =>
              match prediction_to_vehicle acc2.length (rand acc2.length)
                  entry.2 with
              | some v => acc2 ++ [v]
              | none => acc2)
            acc)
    []
  if vehicles.isEmpty then .error "No real-time vehicles found"
  else .ok vehicles

/-- `create_simple_routes_for_real_time` (src/map/src/app/simulation/model.rs
lines 378-407): one two-point placeholder route per tracked line. -/
def create_simple_routes_for_real_time : List Route :=
  primary_lines.enum.map fun p =>
    { id := p.1, name := p.2 ++ " (segment 0)", line_id := p.2,
      vehicle_type := get_vehicle_type_for_line p.2,
      stations := [(-0.1278, 51.5074), (-0.1178, 51.5174)] }

/-- `build_sample_routes` (src/map/src/app/simulation/model.rs lines 38-141):
the three hard-coded sample routes. -/
def build_sample_routes : List Route :=
  [{ id := 0, name := "central (segment 0)", line_id := "central",
     vehicle_type := .Train,
     stations := [(-0.2810, 51.5170), (-0.2528, 51.5113), (-0.2194, 51.5136),
       (-0.1987, 51.5202), (-0.1652, 51.5259), (-0.1350, 51.5210),
       (-0.0997, 51.5152), (-0.0638, 51.5165), (-0.0362, 51.5111),
       (-0.0244, 51.5043), (-0.0048, 51.5035), (-0.0125, 51.5009),
       (-0.0199, 51.4996), (-0.0457, 51.5068), (-0.0742, 51.5113),
       (-0.0983, 51.5142), (-0.1280, 51.5151), (-0.1410, 51.5154),
       (-0.1687, 51.5174), (-0.1889, 51.5206), (-0.1205, 51.5152),
       (-0.1025, 51.5168), (-0.0911, 51.5155), (-0.0765, 51.5108)] },
   { id := 1, name := "northern (segment 0)", line_id := "northern",
     vehicle_type := .Train,
     stations := [(-0.1938, 51.6503), (-0.1932, 51.6302), (-0.1858, 51.6179),
       (-0.1750, 51.6071), (-0.1647, 51.5998), (-0.1534, 51.5874),
       (-0.1419, 51.5775), (-0.1303, 51.5717), (-0.1123, 51.5656),
       (-0.1051, 51.5545), (-0.1426, 51.5302), (-0.1385, 51.5248),
       (-0.1343, 51.5287), (-0.1304, 51.5295), (-0.1231, 51.5203),
       (-0.1065, 51.5121), (-0.0882, 51.5176), (-0.0911, 51.5155),
       (-0.0924, 51.5113), (-0.1002, 51.5044), (-0.1052, 51.4944)] },
   { id := 2, name := "88 (segment 0)", line_id := "88",
     vehicle_type := .Bus,
     stations := [(-0.1465, 51.5365), (-0.1325, 51.5300), (-0.1155, 51.5235),
       (-0.0958, 51.5181), (-0.0879, 51.5155), (-0.0825, 51.5127),
       (-0.0754, 51.5101), (-0.0650, 51.5088), (-0.0550, 51.5070),
       (-0.0449, 51.5055), (-0.0349, 51.5040), (-0.0250, 51.5025),
       (-0.0150, 51.5010), (-0.0050, 51.4995), (0.0050, 51.4980),
       (0.0150, 51.4965), (0.0250, 51.4950), (0.0350, 51.4935),
       (0.0450, 51.4920), (0.0550, 51.4905)] }]

/-- `RouteSequence` (src/map/src/data/model.rs lines 132-150) restricted to
the field read by `build_routes_from_tfl_data` (`mode`; `line_id`,
`direction` and `line_strings` are never consulted there). -/
structure RouteSequence where
  mode : String
deriving DecidableEq, Repr

/-- `TflDataRepository` (src/map/src/data/mod.rs lines 15-25) restricted to
the two fields `build_routes_from_tfl_data` reads; the `HashMap`s are
embedded as association lists in iteration order. -/
structure TflDataRepository where
  routes : List (String × List (String × List RouteSequence))
  route_geometries : List (String × List (List (ℚ × ℚ)))
deriving DecidableEq, Repr

/-- The mode lookup of `build_routes_from_tfl_data`
(src/map/src/app/simulation/model.rs lines 155-161):
`routes.get(line_id) → directions.values().next() → response.first() →
mode.to_lowercase()`, defaulting to "train". -/
def route_mode_for (tfl : TflDataRepository) (line_id : String) : String :=
  ((((tfl.routes.lookup line_id).bind fun directions =>
        directions.head?.map Prod.snd).bind fun response =>
      response.head?).map fun rs => rs.mode.toLower).getD "train"

/-- `build_routes_from_tfl_data` (src/map/src/app/simulation/model.rs lines
144-209): one route per contiguous geometry segment with at least two
coordinates, with ids assigned in emission order; when no route results,
fall back to the sample routes. -/
def build_routes_from_tfl_data (tfl : TflDataRepository) : List Route :=
  let result := tfl.route_geometries.foldl
    (fun (acc : List Route × ℕ) entry =>
      let line_id := entry.1
      let geometries := entry.2
      if geometries.isEmpty then acc
      else
        let route_mode := route_mode_for tfl line_id
        let vehicle_type :=
          if route_mode = "bus" then VehicleType.Bus else VehicleType.Train
        geometries.enum.foldl
          (fun (acc2 : List Route × ℕ) seg =>
            if seg.2.length < 2 then acc2
            else
              let r : Route :=
                { id := acc2.2,
                  name := line_id ++ " (segment " ++ toString seg.1 ++ ")",
                  line_id := line_id, vehicle_type := vehicle_type,
                  stations := seg.2 }
              (acc2.1 ++ [r], acc2.2 + 1))
          acc)
    ([], 0)
  if result.1.isEmpty then build_sample_routes else result.1

/-- The route-catalog part of the three-tier resolution cascade
(src/map/src/app/simulation/mod.rs, `initialize_simulation` →
`use_real_time_data` → `use_fallback_data`): when the live tier yields
vehicles, the installed catalog is `create_simple_routes_for_real_time`;
otherwise the static tier builds from the TfL repository (itself falling
back to the sample routes when it yields no usable route); with no
repository the sample routes are used directly. -/
def resolve_route_catalog (fetch : String → Except String (List Prediction))
    (rand : ℕ → ℚ) (tfl_data : Option TflDataRepository) : List Route :=
  match build_real_time_vehicles fetch rand with
  | .ok _ => create_simple_routes_for_real_time
  | .error _ =>
      match tfl_data with
      | some repo => build_routes_from_tfl_data repo
      | none => build_sample_routes

end Roundel.MapSim

namespace Roundel

/-! ## Theorems -/

/-- Unfolding lemma for `updateLoop` when the loop guard fails. -/
lemma updateLoop_of_lt (len : ℕ) (f : ℚ) (d : ℤ) (l n : ℕ) (h : f < 1) :
    updateLoop len f d l n = (f, d, l, n) := by
  rw [updateLoop]
  simp [not_le.mpr h]

/-- Unfolding lemma for `updateLoop` when the loop guard holds. -/
lemma updateLoop_of_ge (len : ℕ) (f : ℚ) (d : ℤ) (l n : ℕ) (h : 1 ≤ f) :
    updateLoop len f d l n =
      updateLoop len (f - 1) (loopStep len d n).1 (loopStep len d n).2.1
        (loopStep len d n).2.2 := by
  rw [updateLoop]
  simp [h]

/-- Helper: `update_position` computed from a known `updateLoop` result and
known station lookups. -/
lemma update_position_eq (v : Vehicle) (route : Route) (f : ℚ) (d : ℤ)
    (l n : ℕ) (x1 y1 x2 y2 : ℚ)
    (hloop : updateLoop route.stations.length (v.fraction + v.speed)
      v.direction v.last_station v.next_station = (f, d, l, n))
    (hl : route.stations[l]? = some (x1, y1))
    (hn : route.stations[n]? = some (x2, y2)) :
    v.update_position route =
      some { v with
        fraction := f, direction := d, last_station := l, next_station := n,
        x := x1 + (x2 - x1) * f, y := y1 + (y2 - y1) * f } := by
  simp [Vehicle.update_position, hloop, hl, hn]

/-- C1: on the route `[(0,0),(10,0)]`, a vehicle with `speed=0.3`,
`direction=1`, `fraction=0.9`, `last_station=0`, `next_station=1` is taken
by one `update_position` call to `fraction=0.2`, `last_station=1`,
`direction=-1`, `next_station=0` and position `(8.0, 0.0)`; and in general
one station-advance step reverses `direction` exactly when the candidate
index would leave the route, and the resulting indices stay inside the
route (no wrap-around). -/
theorem C1_bounce_scenario :
    (Vehicle.update_position
        { vehicle_type := .Train, route_index := 0, direction := 1,
          last_station := 0, next_station := 1, fraction := 9/10,
          speed := 3/10, x := 0, y := 0 }
        ⟨[(0, 0), (10, 0)]⟩ =
      some { vehicle_type := .Train, route_index := 0, direction := -1,
             last_station := 1, next_station := 0, fraction := 1/5,
             speed := 3/10, x := 8, y := 0 })
    ∧ ∀ (len : ℕ) (direction : ℤ) (next_station : ℕ),
        2 ≤ len → (len : ℤ) ≤ 2 ^ 32 → next_station < len →
        (direction = 1 ∨ direction = -1) →
        (((next_station : ℤ) + direction < 0 ∨
            (len : ℤ) ≤ (next_station : ℤ) + direction) →
          (loopStep len direction next_station).1 = -direction)
        ∧ (loopStep len direction next_station).2.1 < len
        ∧ (loopStep len direction next_station).2.2 < len := by
  constructor
  · have hloop : updateLoop 2 ((9:ℚ)/10 + 3/10) 1 0 1 = (1/5, -1, 1, 0) := by
      rw [updateLoop_of_ge _ _ _ _ _ (by norm_num)]
      have hstep : loopStep 2 1 1 = (-1, 1, 0) := by decide
      rw [hstep]
      rw [updateLoop_of_lt _ _ _ _ _ (by norm_num)]
      norm_num
    have := update_position_eq
      { vehicle_type := .Train, route_index := 0, direction := 1,
        last_station := 0, next_station := 1, fraction := 9/10,
        speed := 3/10, x := 0, y := 0 }
      ⟨[(0, 0), (10, 0)]⟩ (1/5) (-1) 1 0 10 0 0 0 (by simpa using hloop)
      (by norm_num) (by norm_num)
    rw [this]
    norm_num
  · intro len direction next_station h2 h32 hnext hdir
    norm_num at h32
    refine ⟨?_, ?_, ?_⟩
    · intro hout
      simp only [loopStep]
      rw [if_pos hout]
    · simpa [loopStep] using hnext
    · simp only [loopStep, i32AsUsize]
      have hpow : (2 : ℤ) ^ 32 = 4294967296 := by norm_num
      rw [hpow]
      split <;> omega

/-- The normalisation loop leaves the fraction in `[0, 1)` whenever it is
entered with a nonnegative fraction. -/
lemma updateLoop_fraction_bound (len : ℕ) :
    ∀ (k : ℕ) (f : ℚ) (d : ℤ) (l n : ℕ), (⌈f⌉).toNat = k → 0 ≤ f →
      0 ≤ (updateLoop len f d l n).1 ∧ (updateLoop len f d l n).1 < 1 := by
  intro k
  induction k using Nat.strong_induction_on with
  | _ k ih =>
    intro f d l n hk hf
    by_cases h : 1 ≤ f
    · rw [updateLoop_of_ge _ _ _ _ _ h]
      have hceil : ⌈f - 1⌉ = ⌈f⌉ - 1 := by exact_mod_cast Int.ceil_sub_int f 1
      have hpos : (0 : ℤ) < ⌈f⌉ := Int.ceil_pos.mpr (lt_of_lt_of_le zero_lt_one h)
      have hlt : (⌈f - 1⌉).toNat < k := by rw [hceil]; omega
      exact ih _ hlt (f - 1) _ _ _ rfl (by linarith)
    · rw [updateLoop_of_lt _ _ _ _ _ (not_le.mp h)]
      exact ⟨hf, not_le.mp h⟩

/-- One successful `update_position` call sends a nonnegative fraction into
`[0, 1)` (given nonnegative speed) and never changes the speed. -/
lemma update_position_fraction (v v' : Vehicle) (route : Route)
    (h : v.update_position route = some v')
    (hf : 0 ≤ v.fraction) (hs : 0 ≤ v.speed) :
    (0 ≤ v'.fraction ∧ v'.fraction < 1) ∧ v'.speed = v.speed := by
  have hb := updateLoop_fraction_bound route.stations.length
    ((⌈v.fraction + v.speed⌉).toNat) (v.fraction + v.speed) v.direction
    v.last_station v.next_station rfl (by linarith)
  simp only [Vehicle.update_position] at h
  split at h
  · next x1 y1 x2 y2 hl hn =>
    rw [Option.some_inj] at h
    subst h
    exact ⟨hb, rfl⟩
  · next => cases h

/-- C2: a vehicle whose fraction starts in `[0, 1)` and whose speed is
nonnegative keeps `0 ≤ fraction < 1` after any number of `update_position`
calls. -/
theorem C2_fraction_invariant (v : Vehicle) (rs : List Route) (v' : Vehicle)
    (hf0 : 0 ≤ v.fraction) (hf1 : v.fraction < 1) (hs : 0 ≤ v.speed)
    (h : iterateUpdates v rs = some v') :
    0 ≤ v'.fraction ∧ v'.fraction < 1 := by
  induction rs generalizing v with
  | nil =>
    simp only [iterateUpdates, Option.some_inj] at h
    subst h
    exact ⟨hf0, hf1⟩
  | cons r rs ih =>
    simp only [iterateUpdates] at h
    split at h
    · next w hw =>
      obtain ⟨⟨hw0, hw1⟩, hwspeed⟩ := update_position_fraction v w r hw hf0 hs
      exact ih w hw0 hw1 (hwspeed ▸ hs) h
    · next => cases h

/-- C2 witness: concrete run with fraction `1/2`, speed `1/4` on the route
`[(0,0),(10,0)]`. -/
theorem C2_fraction_invariant_witness :
    0 ≤ (3 : ℚ)/4 ∧ (3 : ℚ)/4 < 1 := by
  have hiter : iterateUpdates
      { vehicle_type := .Bus, route_index := 0, direction := 1,
        last_station := 0, next_station := 1, fraction := 1/2,
        speed := 1/4, x := 0, y := 0 }
      [⟨[(0, 0), (10, 0)]⟩] =
      some { vehicle_type := .Bus, route_index := 0, direction := 1,
             last_station := 0, next_station := 1, fraction := 3/4,
             speed := 1/4, x := 0 + (10 - 0) * (3/4), y := 0 + (0 - 0) * (3/4) } := by
    simp only [iterateUpdates]
    rw [update_position_eq _ _ (3/4) 1 0 1 0 0 10 0
      (by rw [updateLoop_of_lt _ _ _ _ _ (by norm_num)]; norm_num)
      (by norm_num) (by norm_num)]
  simpa using C2_fraction_invariant _ _ _ (by norm_num) (by norm_num)
    (by norm_num) hiter

/-- C3: after `start_animation_loop` (from `main_js`) followed by two calls to
`change_animation_interval`, TWO interval tasks are live: the `OnceCell`
`ANIMATION_INTERVAL_ID` can never be updated after its first `set`, so the
second change clears the long-dead original id 0 and the ticker id 1
installed by the first change keeps firing alongside the new ticker id 2.
This refutes the claim that changing the interval always cancels the
previously scheduled task. -/
theorem C3_interval_change_leaks_ticker :
    (change_animation_interval
      (change_animation_interval
        (start_animation_loop ⟨[], 0, none, 16⟩) 33) 16).live = [1, 2]
    ∧ (change_animation_interval
        (change_animation_interval
          (start_animation_loop ⟨[], 0, none, 16⟩) 33) 16).interval_cell =
        some 0 := by
  decide

/-- C5 counterexample: at `scale = 0` the round-trip fails (the claim
quantifies over every scale; the division by a zero scale destroys the
screen point — in `f32` it produces `inf`/`NaN`, in the exact model it
collapses to `pan`). -/
theorem C5_roundtrip_counterexample :
    world_to_screen 0 0 (screen_to_world 0 0 1) ≠ 1 := by
  norm_num [world_to_screen, screen_to_world]

/-- C5 (amended): for every pan, every NONZERO scale (in particular every
scale in the camera's clamped range `[0.1, 50]`), and every screen point
`p`, converting screen→world and back returns `p` exactly. -/
theorem C5_camera_roundtrip (pan scale p : ℚ) (hs : scale ≠ 0) :
    world_to_screen pan scale (screen_to_world pan scale p) = p := by
  unfold world_to_screen screen_to_world
  field_simp
  ring

/-- C5 witness: round-trip at `pan = 3`, `scale = 2`, `p = 7`. -/
theorem C5_camera_roundtrip_witness :
    world_to_screen 3 2 (screen_to_world 3 2 7) = 7 :=
  C5_camera_roundtrip 3 2 7 (by norm_num)

/-- A single wheel event always lands in the clamped range `[0.1, 50]`. -/
lemma wheel_zoom_mem (scale delta : ℚ) :
    1/10 ≤ wheel_zoom scale delta ∧ wheel_zoom scale delta ≤ 50 := by
  have key : ∀ s : ℚ,
      1/10 ≤ (if s < 0.1 then (0.1 : ℚ) else if s > 50 then 50 else s)
      ∧ (if s < 0.1 then (0.1 : ℚ) else if s > 50 then 50 else s) ≤ 50 := by
    intro s
    split
    · norm_num
    · next h1 =>
      split
      · norm_num
      · next h2 =>
        norm_num at h1 h2
        exact ⟨by linarith, h2⟩
  exact key (if delta < 0 then scale * 1.1 else scale * 0.9)

/-- C7: each wheel event multiplies the scale by 1.1 or 0.9 and clamps to
`[0.1, 50]`; hence starting from any scale in that range, any sequence of
wheel events leaves the scale within `[0.1, 50]`. -/
theorem C7_zoom_clamped (scale : ℚ) (deltas : List ℚ)
    (h0 : 1/10 ≤ scale) (h1 : scale ≤ 50) :
    1/10 ≤ apply_wheel_events scale deltas
      ∧ apply_wheel_events scale deltas ≤ 50 := by
  induction deltas generalizing scale with
  | nil => exact ⟨h0, h1⟩
  | cons d ds ih =>
    have hm := wheel_zoom_mem scale d
    exact ih (wheel_zoom scale d) hm.1 hm.2

/-- C7 witness: scale 1 with a zoom-in followed by two zoom-outs. -/
theorem C7_zoom_clamped_witness :
    1/10 ≤ apply_wheel_events 1 [-1, 1, 1]
      ∧ apply_wheel_events 1 [-1, 1, 1] ≤ 50 :=
  C7_zoom_clamped 1 [-1, 1, 1] (by norm_num) (by norm_num)

/-- C9: `toggle_pause` in both implementations (src/sim/src/ui/core.rs and
src/map/src/app/simulation/state.rs) only flips the pause flag and returns
the new value; the routes vector and the vehicles vector are returned
untouched (in the sim crate the whole `GLOBAL_STATE` is untouched). -/
theorem C9_toggle_pause_pure :
    (∀ app : SimApp,
      (toggle_pause app).1 = !app.simulation_control.paused
      ∧ (toggle_pause app).2.global_state.routes = app.global_state.routes
      ∧ (toggle_pause app).2.global_state.vehicles = app.global_state.vehicles
      ∧ (toggle_pause app).2.global_state = app.global_state
      ∧ (toggle_pause app).2.simulation_control.paused
          = !app.simulation_control.paused)
    ∧ ∀ st : MapSim.SimulationState,
      (MapSim.toggle_pause st).1 = !st.is_paused
      ∧ (MapSim.toggle_pause st).2.routes = st.routes
      ∧ (MapSim.toggle_pause st).2.vehicles = st.vehicles
      ∧ (MapSim.toggle_pause st).2.is_paused = !st.is_paused :=
  ⟨fun _ => ⟨rfl, rfl, rfl, rfl, rfl⟩, fun _ => ⟨rfl, rfl, rfl, rfl⟩⟩

/-- The boolean guard of the scan decides exactly the `Qual` predicate. -/
lemma scan_qualifies (threshold wx wy : ℚ) (v : Vehicle)
    (best : Option (ℕ × ℚ)) :
    ((match best with
      | none => decide (distSq wx wy v < threshold * threshold)
      | some b => decide (distSq wx wy v < threshold * threshold
          ∧ distSq wx wy v < b.2)) = true)
    ↔ Qual threshold best (distSq wx wy v) := by
  cases best with
  | none => simp [Qual]
  | some b => simp [Qual, Option.mem_def]

/-- Unfolding of the scan over a cons cell, qualifying case. -/
lemma scanVehicles_cons_pos (threshold wx wy : ℚ) (v : Vehicle)
    (rest : List Vehicle) (i : ℕ) (best : Option (ℕ × ℚ))
    (hq : Qual threshold best (distSq wx wy v)) :
    scanVehicles threshold wx wy (v :: rest) i best
      = scanVehicles threshold wx wy rest (i + 1)
          (some (i, distSq wx wy v)) := by
  simp only [scanVehicles]
  rw [if_pos ((scan_qualifies threshold wx wy v best).mpr hq)]

/-- Unfolding of the scan over a cons cell, non-qualifying case. -/
lemma scanVehicles_cons_neg (threshold wx wy : ℚ) (v : Vehicle)
    (rest : List Vehicle) (i : ℕ) (best : Option (ℕ × ℚ))
    (hq : ¬ Qual threshold best (distSq wx wy v)) :
    scanVehicles threshold wx wy (v :: rest) i best
      = scanVehicles threshold wx wy rest (i + 1) best := by
  simp only [scanVehicles]
  rw [if_neg]
  rw [scan_qualifies threshold wx wy v best]
  exact hq

/-- Full characterisation of the vehicle scan: starting from accumulator
`best` at index `i`, either no vehicle in `l` qualifies (beats both the
threshold and `best`) and the scan returns `best` unchanged, or the scan
returns the first vehicle of `l` attaining the minimal qualifying squared
distance. -/
lemma scanVehicles_spec (threshold wx wy : ℚ) :
    ∀ (l : List Vehicle) (i : ℕ) (best : Option (ℕ × ℚ)),
      (scanVehicles threshold wx wy l i best = best
        ∧ ∀ v ∈ l, ¬ Qual threshold best (distSq wx wy v))
      ∨ (∃ (m : ℕ) (h : m < l.length),
          scanVehicles threshold wx wy l i best
            = some (i + m, distSq wx wy (l.get ⟨m, h⟩))
          ∧ Qual threshold best (distSq wx wy (l.get ⟨m, h⟩))
          ∧ (∀ v ∈ l, Qual threshold best (distSq wx wy v) →
              distSq wx wy (l.get ⟨m, h⟩) ≤ distSq wx wy v)
          ∧ (∀ v ∈ l.take m, Qual threshold best (distSq wx wy v) →
              distSq wx wy (l.get ⟨m, h⟩) < distSq wx wy v)) := by
  intro l
  induction l with
  | nil =>
    intro i best
    left
    exact ⟨rfl, by simp⟩
  | cons v rest ih =>
    intro i best
    by_cases hq : Qual threshold best (distSq wx wy v)
    · rw [scanVehicles_cons_pos threshold wx wy v rest i best hq]
      rcases ih (i + 1) (some (i, distSq wx wy v)) with
        ⟨heq, hnone⟩ | ⟨m, hm, heq, hqual, hmin, htake⟩
      · right
        refine ⟨0, by simp, ?_, hq, ?_, by simp⟩
        · exact heq
        · intro u hu hQu
          rcases List.mem_cons.mp hu with h | h
          · subst h; exact le_refl _
          · have := hnone u h
            have hd : ¬ (distSq wx wy u < threshold * threshold
                ∧ distSq wx wy u < distSq wx wy v) := by
              intro hc
              exact this ⟨hc.1, by intro b hb; rw [Option.mem_def, Option.some_inj] at hb; subst hb; exact hc.2⟩
            have hlt : ¬ distSq wx wy u < distSq wx wy v := fun hc => hd ⟨hQu.1, hc⟩
            exact le_of_not_lt hlt
      · right
        have hm' : m + 1 < (v :: rest).length := by simpa using Nat.succ_lt_succ hm
        refine ⟨m + 1, hm', ?_, ?_, ?_, ?_⟩
        · have hidx : i + (m + 1) = (i + 1) + m := by omega
          rw [hidx]
          exact heq
        · have hv2 : distSq wx wy (rest.get ⟨m, hm⟩) < distSq wx wy v :=
            (hqual.2 (i, distSq wx wy v) rfl)
          exact ⟨hqual.1, fun b hb => lt_trans hv2 (hq.2 b hb)⟩
        · intro u hu hQu
          rcases List.mem_cons.mp hu with h | h
          · subst h
            exact le_of_lt (hqual.2 (i, distSq wx wy u) rfl)
          · by_cases hQ2 : Qual threshold (some (i, distSq wx wy v)) (distSq wx wy u)
            · exact hmin u h hQ2
            · have hge : ¬ distSq wx wy u < distSq wx wy v := by
                intro hc
                exact hQ2 ⟨hQu.1, by intro b hb; rw [Option.mem_def, Option.some_inj] at hb; subst hb; exact hc⟩
              have hv2 : distSq wx wy (rest.get ⟨m, hm⟩) < distSq wx wy v :=
                hqual.2 (i, distSq wx wy v) rfl
              exact le_of_lt (lt_of_lt_of_le hv2 (le_of_not_lt hge))
        · intro u hu hQu
          rw [List.take_succ_cons] at hu
          rcases List.mem_cons.mp hu with h | h
          · subst h
            exact hqual.2 (i, distSq wx wy u) rfl
          · by_cases hQ2 : Qual threshold (some (i, distSq wx wy v)) (distSq wx wy u)
            · exact htake u h hQ2
            · have hge : ¬ distSq wx wy u < distSq wx wy v := by
                intro hc
                exact hQ2 ⟨hQu.1, by intro b hb; rw [Option.mem_def, Option.some_inj] at hb; subst hb; exact hc⟩
              have hv2 : distSq wx wy (rest.get ⟨m, hm⟩) < distSq wx wy v :=
                hqual.2 (i, distSq wx wy v) rfl
              exact lt_of_lt_of_le hv2 (le_of_not_lt hge)
    · rw [scanVehicles_cons_neg threshold wx wy v rest i best hq]
      rcases ih (i + 1) best with
        ⟨heq, hnone⟩ | ⟨m, hm, heq, hqual, hmin, htake⟩
      · left
        refine ⟨heq, ?_⟩
        intro u hu
        rcases List.mem_cons.mp hu with h | h
        · subst h; exact hq
        · exact hnone u h
      · right
        have hm' : m + 1 < (v :: rest).length := by simpa using Nat.succ_lt_succ hm
        refine ⟨m + 1, hm', ?_, hqual, ?_, ?_⟩
        · have hidx : i + (m + 1) = (i + 1) + m := by omega
          rw [hidx]
          exact heq
        · intro u hu hQu
          rcases List.mem_cons.mp hu with h | h
          · subst h; exact absurd hQu hq
          · exact hmin u h hQu
        · intro u hu hQu
          rw [List.take_succ_cons] at hu
          rcases List.mem_cons.mp hu with h | h
          · subst h; exact absurd hQu hq
          · exact htake u h hQu

/-- `Qual` against an empty accumulator is just the threshold test. -/
lemma Qual_none (threshold d : ℚ) :
    Qual threshold none d ↔ d < threshold * threshold := by
  simp [Qual]

/-- C6: the click handler's pick selects the index of the vehicle minimising
squared world-space distance to the converted world point, but only when
that squared distance is strictly below `(10 / scale)²` (a world-space
radius of `threshold_px / scale` with `threshold_px = 10`); if no vehicle is
strictly within the radius the selection is cleared to `none`; earlier
indices win ties (every earlier in-radius vehicle is strictly farther). -/
theorem C6_pick_spec (vehicles : List Vehicle)
    (pan_x pan_y scale click_x click_y : ℚ) :
    (pick_vehicle vehicles pan_x pan_y scale click_x click_y = none ↔
      ∀ v ∈ vehicles,
        ¬ distSq (click_x / scale + pan_x) (click_y / scale + pan_y) v
            < (10 / scale) * (10 / scale))
    ∧ ∀ i, pick_vehicle vehicles pan_x pan_y scale click_x click_y = some i →
        ∃ h : i < vehicles.length,
          distSq (click_x / scale + pan_x) (click_y / scale + pan_y)
              (vehicles.get ⟨i, h⟩) < (10 / scale) * (10 / scale)
          ∧ (∀ v ∈ vehicles,
              distSq (click_x / scale + pan_x) (click_y / scale + pan_y) v
                  < (10 / scale) * (10 / scale) →
                distSq (click_x / scale + pan_x) (click_y / scale + pan_y)
                    (vehicles.get ⟨i, h⟩)
                  ≤ distSq (click_x / scale + pan_x) (click_y / scale + pan_y) v)
          ∧ (∀ v ∈ vehicles.take i,
              distSq (click_x / scale + pan_x) (click_y / scale + pan_y) v
                  < (10 / scale) * (10 / scale) →
                distSq (click_x / scale + pan_x) (click_y / scale + pan_y)
                    (vehicles.get ⟨i, h⟩)
                  < distSq (click_x / scale + pan_x) (click_y / scale + pan_y) v) := by
  rcases scanVehicles_spec (10 / scale) (click_x / scale + pan_x)
      (click_y / scale + pan_y) vehicles 0 none with
    ⟨heq, hnone⟩ | ⟨m, hm, heq, hqual, hmin, htake⟩
  · constructor
    · constructor
      · intro _ v hv
        have := hnone v hv
        rw [Qual_none] at this
        exact this
      · intro _
        simp [pick_vehicle, heq]
    · intro i hi
      exfalso
      simp [pick_vehicle, heq] at hi
  · have h0m : 0 + m = m := by omega
    rw [h0m] at heq
    have hpick : pick_vehicle vehicles pan_x pan_y scale click_x click_y
        = some m := by
      simp [pick_vehicle, heq]
    constructor
    · constructor
      · intro h0
        rw [hpick] at h0
        cases h0
      · intro hall
        exfalso
        have hq := (Qual_none _ _).mp hqual
        exact hall (vehicles.get ⟨m, hm⟩) (vehicles.get_mem _ _) hq
    · intro i hi
      rw [hpick, Option.some_inj] at hi
      subst hi
      refine ⟨hm, (Qual_none _ _).mp hqual, ?_, ?_⟩
      · intro v hv hd
        exact hmin v hv ((Qual_none _ _).mpr hd)
      · intro v hv hd
        exact htake v hv ((Qual_none _ _).mpr hd)

/-- C6 witness: at `scale = 2` (world-space radius 5), a vehicle at world
distance 5.01 from the click is not selected (selection cleared), and a
vehicle at world distance 3 is selected as index 0 with the minimality
properties. -/
theorem C6_pick_spec_witness :
    pick_vehicle
        [{ vehicle_type := .Bus, route_index := 0, direction := 1,
           last_station := 0, next_station := 1, fraction := 0, speed := 0,
           x := 501/100, y := 0 }] 0 0 2 0 0 = none
    ∧ ∃ h : (0 : ℕ) <
        ([{ vehicle_type := .Bus, route_index := 0, direction := 1,
            last_station := 0, next_station := 1, fraction := 0, speed := 0,
            x := 0, y := 3 }] : List Vehicle).length,
        distSq (0 / 2 + 0) (0 / 2 + 0)
            (([{ vehicle_type := .Bus, route_index := 0, direction := 1,
                 last_station := 0, next_station := 1, fraction := 0,
                 speed := 0, x := 0, y := 3 }] : List Vehicle).get ⟨0, h⟩)
          < (10 / 2) * (10 / 2)
        ∧ (∀ v ∈ ([{ vehicle_type := .Bus, route_index := 0, direction := 1,
                     last_station := 0, next_station := 1, fraction := 0,
                     speed := 0, x := 0, y := 3 }] : List Vehicle),
            distSq (0 / 2 + 0) (0 / 2 + 0) v < (10 / 2) * (10 / 2) →
              distSq (0 / 2 + 0) (0 / 2 + 0)
                  (([{ vehicle_type := .Bus, route_index := 0, direction := 1,
                       last_station := 0, next_station := 1, fraction := 0,
                       speed := 0, x := 0, y := 3 }] : List Vehicle).get ⟨0, h⟩)
                ≤ distSq (0 / 2 + 0) (0 / 2 + 0) v)
        ∧ (∀ v ∈ ([{ vehicle_type := .Bus, route_index := 0, direction := 1,
                     last_station := 0, next_station := 1, fraction := 0,
                     speed := 0, x := 0, y := 3 }] : List Vehicle).take 0,
            distSq (0 / 2 + 0) (0 / 2 + 0) v < (10 / 2) * (10 / 2) →
              distSq (0 / 2 + 0) (0 / 2 + 0)
                  (([{ vehicle_type := .Bus, route_index := 0, direction := 1,
                       last_station := 0, next_station := 1, fraction := 0,
                       speed := 0, x := 0, y := 3 }] : List Vehicle).get ⟨0, h⟩)
                < distSq (0 / 2 + 0) (0 / 2 + 0) v) := by
  constructor
  · refine (C6_pick_spec _ 0 0 2 0 0).1.mpr ?_
    intro v hv
    simp only [List.mem_singleton] at hv
    subst hv
    norm_num [distSq]
  · refine (C6_pick_spec _ 0 0 2 0 0).2 0 ?_
    have hscan : scanVehicles (10/2) (0/2 + 0) (0/2 + 0)
        [{ vehicle_type := .Bus, route_index := 0, direction := 1,
           last_station := 0, next_station := 1, fraction := 0, speed := 0,
           x := 0, y := 3 }] 0 none
        = some (0, distSq (0/2 + 0) (0/2 + 0)
            { vehicle_type := .Bus, route_index := 0, direction := 1,
              last_station := 0, next_station := 1, fraction := 0, speed := 0,
              x := 0, y := 3 }) := by
      rw [scanVehicles_cons_pos _ _ _ _ _ _ _
        (by rw [Qual_none]; norm_num [distSq])]
      rfl
    rw [show ((0 : ℚ)/2 + 0) = 0 by norm_num] at hscan
    simp [pick_vehicle, hscan]

/-- The static tier never returns an empty catalog: either it found usable
routes, or it falls back to the non-empty sample routes. -/
lemma build_routes_from_tfl_data_ne_nil (tfl : MapSim.TflDataRepository) :
    MapSim.build_routes_from_tfl_data tfl ≠ [] := by
  have key : ∀ result : List MapSim.Route × ℕ,
      (if result.1.isEmpty then MapSim.build_sample_routes else result.1)
        ≠ [] := by
    intro result
    split
    · simp [MapSim.build_sample_routes]
    · next h =>
      intro hc
      rw [hc] at h
      simp at h
  exact key _

/-- C4: the route-catalog resolution cascade always returns a non-empty
catalog, whatever the live-tier fetch results, the random stream and the
(possibly absent or empty) static topology repository. -/
theorem C4_resolve_nonempty
    (fetch : String → Except String (List MapSim.Prediction))
    (rand : ℕ → ℚ) (tfl_data : Option MapSim.TflDataRepository) :
    MapSim.resolve_route_catalog fetch rand tfl_data ≠ [] := by
  have hlen : MapSim.create_simple_routes_for_real_time.length = 14 := by
    simp [MapSim.create_simple_routes_for_real_time, MapSim.primary_lines]
  unfold MapSim.resolve_route_catalog
  cases MapSim.build_real_time_vehicles fetch rand with
  | ok vs =>
    have hne : MapSim.create_simple_routes_for_real_time ≠ [] := by
      intro hc
      rw [hc] at hlen
      simp at hlen
    exact hne
  | error e =>
    cases tfl_data with
    | some repo => exact build_routes_from_tfl_data_ne_nil repo
    | none =>
      have hne : MapSim.build_sample_routes ≠ [] := by
        simp [MapSim.build_sample_routes]
      exact hne

/-- C4 witness: live tier failing on every line and a repository with zero
usable routes still yield a non-empty catalog (the synthetic sample tier). -/
theorem C4_resolve_nonempty_witness :
    MapSim.resolve_route_catalog (fun _ => .error "network error")
      (fun _ => 0) (some ⟨[], []⟩) ≠ [] :=
  C4_resolve_nonempty _ _ _

/-- Lookup distributes over appending association lists: the first list wins. -/
lemma find_entry_append (m l : List (String × MapSim.Prediction)) (k : String) :
    MapSim.find_entry (m ++ l) k =
      match MapSim.find_entry m k with
      | some r => some r
      | none => MapSim.find_entry l k := by
  induction m with
  | nil => simp [MapSim.find_entry]
  | cons e rest ih =>
    by_cases he : e.1 = k
    · simp [MapSim.find_entry, he]
    · simp [MapSim.find_entry, he, ih]

/-- Lookup fails exactly when the key is absent. -/
lemma find_entry_none_iff (m : List (String × MapSim.Prediction)) (k : String) :
    MapSim.find_entry m k = none ↔ k ∉ m.map Prod.fst := by
  induction m with
  | nil => simp [MapSim.find_entry]
  | cons e rest ih =>
    by_cases he : e.1 = k
    · simp [MapSim.find_entry, he]
    · simp [MapSim.find_entry, he, ih, Ne.symm he]

/-- Replacing an entry keeps the key list. -/
lemma replace_entry_map_fst (m : List (String × MapSim.Prediction))
    (k : String) (p : MapSim.Prediction) :
    (MapSim.replace_entry m k p).map Prod.fst = m.map Prod.fst := by
  induction m with
  | nil => rfl
  | cons e rest ih =>
    simp only [MapSim.replace_entry, List.map_cons] at ih ⊢
    by_cases he : e.1 = k
    · rw [if_pos he, ih]
      simp [he]
    · rw [if_neg he, ih]

/-- Replacing a present key makes the lookup return the new value. -/
lemma find_entry_replace_self (m : List (String × MapSim.Prediction))
    (k : String) (p q : MapSim.Prediction)
    (h : MapSim.find_entry m k = some q) :
    MapSim.find_entry (MapSim.replace_entry m k p) k = some p := by
  induction m with
  | nil => simp [MapSim.find_entry] at h
  | cons e rest ih =>
    have hmap : MapSim.replace_entry (e :: rest) k p
        = (if e.1 = k then (k, p) else e) :: MapSim.replace_entry rest k p := rfl
    rw [hmap]
    by_cases he : e.1 = k
    · rw [if_pos he]
      show (if k = k then some p
          else MapSim.find_entry (MapSim.replace_entry rest k p) k) = some p
      rw [if_pos rfl]
    · rw [if_neg he]
      show (if e.1 = k then some e.2
          else MapSim.find_entry (MapSim.replace_entry rest k p) k) = some p
      rw [if_neg he]
      apply ih
      have hh : MapSim.find_entry (e :: rest) k = MapSim.find_entry rest k := by
        show (if e.1 = k then some e.2 else MapSim.find_entry rest k) = _
        rw [if_neg he]
      rw [hh] at h
      exact h

/-- Replacing one key leaves the lookup of other keys unchanged. -/
lemma find_entry_replace_ne (m : List (String × MapSim.Prediction))
    (k k' : String) (p : MapSim.Prediction) (hne : k' ≠ k) :
    MapSim.find_entry (MapSim.replace_entry m k p) k'
      = MapSim.find_entry m k' := by
  induction m with
  | nil => rfl
  | cons e rest ih =>
    have hmap : MapSim.replace_entry (e :: rest) k p
        = (if e.1 = k then (k, p) else e) :: MapSim.replace_entry rest k p := rfl
    rw [hmap]
    by_cases he : e.1 = k
    · rw [if_pos he]
      show (if k = k' then some p
          else MapSim.find_entry (MapSim.replace_entry rest k p) k')
        = MapSim.find_entry (e :: rest) k'
      rw [if_neg (Ne.symm hne)]
      have hne2 : ¬ e.1 = k' := by rw [he]; exact Ne.symm hne
      show _ = if e.1 = k' then some e.2 else MapSim.find_entry rest k'
      rw [if_neg hne2, ih]
    · rw [if_neg he]
      show (if e.1 = k' then some e.2
          else MapSim.find_entry (MapSim.replace_entry rest k p) k')
        = MapSim.find_entry (e :: rest) k'
      by_cases he2 : e.1 = k'
      · rw [if_pos he2]
        show _ = if e.1 = k' then some e.2 else MapSim.find_entry rest k'
        rw [if_pos he2]
      · rw [if_neg he2, ih]
        show _ = if e.1 = k' then some e.2 else MapSim.find_entry rest k'
        rw [if_neg he2]

/-- One fold step at the end of the prediction list. -/
lemma build_vehicle_map_append (l : List MapSim.Prediction)
    (p : MapSim.Prediction) :
    MapSim.build_vehicle_map (l ++ [p])
      = MapSim.vehicle_map_step (MapSim.build_vehicle_map l) p := by
  simp [MapSim.build_vehicle_map, List.foldl_append]

/-- `vehicle_map_step` equation: skipped prediction. -/
lemma vehicle_map_step_skip (m : List (String × MapSim.Prediction))
    (p : MapSim.Prediction)
    (h : (p.vehicle_id.isNone || p.time_to_station.isNone) = true) :
    MapSim.vehicle_map_step m p = m := by
  unfold MapSim.vehicle_map_step
  rw [if_pos h]

/-- `vehicle_map_step` equation: fresh vehicle id. -/
lemma vehicle_map_step_new (m : List (String × MapSim.Prediction))
    (p : MapSim.Prediction)
    (h : ¬ (p.vehicle_id.isNone || p.time_to_station.isNone) = true)
    (hf : MapSim.find_entry m (p.vehicle_id.getD "") = none) :
    MapSim.vehicle_map_step m p = m ++ [(p.vehicle_id.getD "", p)] := by
  unfold MapSim.vehicle_map_step
  rw [if_neg h]
  simp only [hf]

/-- `vehicle_map_step` equation: duplicate id with strictly smaller
time-to-station replaces the entry. -/
lemma vehicle_map_step_replace (m : List (String × MapSim.Prediction))
    (p q : MapSim.Prediction)
    (h : ¬ (p.vehicle_id.isNone || p.time_to_station.isNone) = true)
    (hf : MapSim.find_entry m (p.vehicle_id.getD "") = some q)
    (hlt : p.time_to_station.getD 0 < q.time_to_station.getD 0) :
    MapSim.vehicle_map_step m p
      = MapSim.replace_entry m (p.vehicle_id.getD "") p := by
  unfold MapSim.vehicle_map_step
  rw [if_neg h]
  simp only [hf]
  rw [if_pos hlt]

/-- `vehicle_map_step` equation: duplicate id without improvement keeps the
existing entry. -/
lemma vehicle_map_step_keep (m : List (String × MapSim.Prediction))
    (p q : MapSim.Prediction)
    (h : ¬ (p.vehicle_id.isNone || p.time_to_station.isNone) = true)
    (hf : MapSim.find_entry m (p.vehicle_id.getD "") = some q)
    (hge : ¬ p.time_to_station.getD 0 < q.time_to_station.getD 0) :
    MapSim.vehicle_map_step m p = m := by
  unfold MapSim.vehicle_map_step
  rw [if_neg h]
  simp only [hf]
  rw [if_neg hge]

/-- An entry specification survives appending a prediction that cannot beat
it (either it lacks the id, or its time-to-station is not smaller). -/
lemma EntrySpec_extend (l : List MapSim.Prediction)
    (p q : MapSim.Prediction) (vid : String)
    (h : MapSim.EntrySpec l vid q)
    (hp : ∀ tq ∈ p.time_to_station, p.vehicle_id = some vid →
        ∀ tp ∈ q.time_to_station, tp ≤ tq) :
    MapSim.EntrySpec (l ++ [p]) vid q := by
  obtain ⟨h1, h2, ⟨l1, l2, hsplit, hfirst⟩, hmin⟩ := h
  refine ⟨h1, h2, ⟨l1, l2 ++ [p], by rw [hsplit]; simp, hfirst⟩, ?_⟩
  intro q' hq' hvid' tq htq tp htp
  rcases List.mem_append.mp hq' with hmem | hmem
  · exact hmin q' hmem hvid' tq htq tp htp
  · rw [List.mem_singleton] at hmem
    subst hmem
    exact hp tq htq hvid' tp htp

/-- Full characterisation of the vehicle-id deduplication: keys are unique,
every stored entry satisfies `EntrySpec` (minimal time-to-station, first
seen wins ties), and an absent key means every prediction with that id
lacked a time-to-station. -/
lemma build_vehicle_map_spec (preds : List MapSim.Prediction) :
    ((MapSim.build_vehicle_map preds).map Prod.fst).Nodup
    ∧ (∀ (vid : String) (p : MapSim.Prediction),
        MapSim.find_entry (MapSim.build_vehicle_map preds) vid = some p →
          MapSim.EntrySpec preds vid p)
    ∧ (∀ vid : String,
        MapSim.find_entry (MapSim.build_vehicle_map preds) vid = none →
          ∀ q ∈ preds, q.vehicle_id = some vid →
            q.time_to_station = none) := by
  induction preds using List.reverseRecOn with
  | nil =>
    refine ⟨by simp [MapSim.build_vehicle_map], ?_, ?_⟩
    · intro vid p hp
      simp [MapSim.build_vehicle_map, MapSim.find_entry] at hp
    · intro vid _ q hq
      simp at hq
  | append_singleton l p ih =>
    obtain ⟨hnodup, hsome, hnone⟩ := ih
    rw [build_vehicle_map_append]
    by_cases hskip : (p.vehicle_id.isNone || p.time_to_station.isNone) = true
    · rw [vehicle_map_step_skip _ _ hskip]
      have hsk : p.vehicle_id = none ∨ p.time_to_station = none := by
        rcases Bool.or_eq_true_iff.mp hskip with h | h
        · exact Or.inl (Option.isNone_iff_eq_none.mp h)
        · exact Or.inr (Option.isNone_iff_eq_none.mp h)
      refine ⟨hnodup, ?_, ?_⟩
      · intro vid q hq
        refine EntrySpec_extend l p q vid (hsome vid q hq) ?_
        intro tq htq hvid' tp htp
        rcases hsk with h | h
        · rw [h] at hvid'; cases hvid'
        · rw [h] at htq; simp at htq
      · intro vid hvn q' hq' hvid'
        rcases List.mem_append.mp hq' with hmem | hmem
        · exact hnone vid hvn q' hmem hvid'
        · rw [List.mem_singleton] at hmem
          subst hmem
          rcases hsk with h | h
          · rw [h] at hvid'; cases hvid'
          · exact h
    · have hvid0 : p.vehicle_id = some (p.vehicle_id.getD "") := by
        rcases hv : p.vehicle_id with _ | a
        · rw [hv] at hskip; simp at hskip
        · simp
      have htts0 : p.time_to_station
          = some (p.time_to_station.getD 0) := by
        rcases hv : p.time_to_station with _ | a
        · rw [hv] at hskip; simp at hskip
        · simp
      cases hfind : MapSim.find_entry (MapSim.build_vehicle_map l)
          (p.vehicle_id.getD "") with
      | none =>
        rw [vehicle_map_step_new _ _ hskip hfind]
        refine ⟨?_, ?_, ?_⟩
        · rw [List.map_append]
          refine List.Nodup.append hnodup (by simp) ?_
          intro a ha hb
          simp only [List.map_cons, List.map_nil, List.mem_singleton] at hb
          subst hb
          exact (find_entry_none_iff _ _).mp hfind ha
        · intro vid q hq
          rw [find_entry_append] at hq
          cases hfm : MapSim.find_entry (MapSim.build_vehicle_map l) vid with
          | some r =>
            rw [hfm] at hq
            have hq' : r = q := by simpa using hq
            subst hq'
            refine EntrySpec_extend l p r vid (hsome vid r hfm) ?_
            intro tq htq hvid' tp htp
            rw [hvid0] at hvid'
            rw [Option.some_inj] at hvid'
            rw [hvid'] at hfind
            rw [hfind] at hfm
            cases hfm
          | none =>
            rw [hfm] at hq
            have hq2 : (if p.vehicle_id.getD "" = vid then some p else none)
                = some q := hq
            by_cases hpvv : p.vehicle_id.getD "" = vid
            · rw [if_pos hpvv, Option.some_inj] at hq2
              subst hq2
              subst hpvv
              refine ⟨hvid0, by rw [htts0]; rfl, ⟨l, [], by simp, ?_⟩, ?_⟩
              · intro q' hq' hvid' tq htq tp htp
                have := hnone _ hfm q' hq' hvid'
                rw [this] at htq
                simp at htq
              · intro q' hq' hvid' tq htq tp htp
                rcases List.mem_append.mp hq' with hmem | hmem
                · have := hnone _ hfm q' hmem hvid'
                  rw [this] at htq
                  simp at htq
                · rw [List.mem_singleton] at hmem
                  subst hmem
                  rw [htts0, Option.mem_some_iff] at htq htp
                  omega
            · rw [if_neg hpvv] at hq2
              cases hq2
        · intro vid hvn q' hq' hvid'
          rw [find_entry_append] at hvn
          cases hfm : MapSim.find_entry (MapSim.build_vehicle_map l) vid with
          | some r => rw [hfm] at hvn; simp at hvn
          | none =>
            rw [hfm] at hvn
            have hvn2 : (if p.vehicle_id.getD "" = vid then some p else none)
                = none := hvn
            by_cases hpvv : p.vehicle_id.getD "" = vid
            · rw [if_pos hpvv] at hvn2; cases hvn2
            · rcases List.mem_append.mp hq' with hmem | hmem
              · exact hnone vid hfm q' hmem hvid'
              · rw [List.mem_singleton] at hmem
                subst hmem
                rw [hvid0] at hvid'
                rw [Option.some_inj] at hvid'
                exact absurd hvid' hpvv
      | some q0 =>
        have hq0spec := hsome _ q0 hfind
        obtain ⟨hq01, hq02, _, hq0min⟩ := hq0spec
        obtain ⟨t0, ht0⟩ := Option.isSome_iff_exists.mp hq02
        have ht0g : q0.time_to_station.getD 0 = t0 := by rw [ht0]; rfl
        have ht0mem : t0 ∈ q0.time_to_station := by
          rw [Option.mem_def]
          exact ht0
        by_cases hlt : p.time_to_station.getD 0
            < q0.time_to_station.getD 0
        · rw [vehicle_map_step_replace _ _ _ hskip hfind hlt]
          refine ⟨?_, ?_, ?_⟩
          · rw [replace_entry_map_fst]
            exact hnodup
          · intro vid q hq
            by_cases hpvv : p.vehicle_id.getD "" = vid
            · subst hpvv
              rw [find_entry_replace_self _ _ _ _ hfind,
                Option.some_inj] at hq
              subst hq
              refine ⟨hvid0, by rw [htts0]; rfl, ⟨l, [], by simp, ?_⟩, ?_⟩
              · intro q' hq' hvid' tq htq tp htp
                have ht0le := hq0min q' hq' hvid' tq htq t0 ht0mem
                rw [htts0, Option.mem_some_iff] at htp
                rw [ht0g] at hlt
                omega
              · intro q' hq' hvid' tq htq tp htp
                rcases List.mem_append.mp hq' with hmem | hmem
                · have ht0le := hq0min q' hmem hvid' tq htq t0 ht0mem
                  rw [htts0, Option.mem_some_iff] at htp
                  rw [ht0g] at hlt
                  omega
                · rw [List.mem_singleton] at hmem
                  subst hmem
                  rw [htts0, Option.mem_some_iff] at htq htp
                  omega
            · rw [find_entry_replace_ne _ _ _ _
                (fun h => hpvv h.symm)] at hq
              refine EntrySpec_extend l p q vid (hsome vid q hq) ?_
              intro tq htq hvid' tp htp
              rw [hvid0] at hvid'
              rw [Option.some_inj] at hvid'
              exact absurd hvid' hpvv
          · intro vid hvn q' hq' hvid'
            by_cases hpvv : p.vehicle_id.getD "" = vid
            · subst hpvv
              rw [find_entry_replace_self _ _ _ _ hfind] at hvn
              cases hvn
            · rw [find_entry_replace_ne _ _ _ _
                (fun h => hpvv h.symm)] at hvn
              rcases List.mem_append.mp hq' with hmem | hmem
              · exact hnone vid hvn q' hmem hvid'
              · rw [List.mem_singleton] at hmem
                subst hmem
                rw [hvid0] at hvid'
                rw [Option.some_inj] at hvid'
                exact absurd hvid' hpvv
        · rw [vehicle_map_step_keep _ _ _ hskip hfind hlt]
          refine ⟨hnodup, ?_, ?_⟩
          · intro vid q hq
            refine EntrySpec_extend l p q vid (hsome vid q hq) ?_
            intro tq htq hvid' tp htp
            rw [hvid0] at hvid'
            rw [Option.some_inj] at hvid'
            subst hvid'
            rw [hfind, Option.some_inj] at hq
            subst hq
            rw [htts0, Option.mem_some_iff] at htq
            rw [ht0, Option.mem_some_iff] at htp
            rw [ht0g] at hlt
            omega
          · intro vid hvn q' hq' hvid'
            rcases List.mem_append.mp hq' with hmem | hmem
            · exact hnone vid hvn q' hmem hvid'
            · rw [List.mem_singleton] at hmem
              subst hmem
              rw [hvid0] at hvid'
              rw [Option.some_inj] at hvid'
              subst hvid'
              rw [hfind] at hvn
              cases hvn

/-- C8: for every prediction list of a line, the live tier's dedup keeps at
most one entry per vehicle id (the key list of the vehicle map has no
duplicates); each stored entry is a prediction with that vehicle id whose
time-to-station is minimal among the predictions with that id, the first
such prediction winning ties; and every vehicle built from a prediction has
progress fraction `(600 - min(time_to_station, 600)) / 600`. -/
theorem C8_live_tier_dedup :
    (∀ preds : List MapSim.Prediction,
      ((MapSim.build_vehicle_map preds).map Prod.fst).Nodup)
    ∧ (∀ (preds : List MapSim.Prediction) (vid : String)
        (p : MapSim.Prediction),
        MapSim.find_entry (MapSim.build_vehicle_map preds) vid = some p →
          MapSim.EntrySpec preds vid p)
    ∧ ∀ (id_counter : ℕ) (rand : ℚ) (p : MapSim.Prediction)
        (v : MapSim.Vehicle),
        MapSim.prediction_to_vehicle id_counter rand p = some v →
          ∀ t ∈ p.time_to_station,
            v.position = (600 - min (t : ℚ) 600) / 600 := by
  refine ⟨fun preds => (build_vehicle_map_spec preds).1,
    fun preds => (build_vehicle_map_spec preds).2.1, ?_⟩
  intro id_counter rand p v h t ht
  rw [Option.mem_def] at ht
  unfold MapSim.prediction_to_vehicle at h
  split at h
  · cases h
  · rw [Option.some_inj] at h
    subst h
    show (600 - min ((p.time_to_station.getD 0 : ℤ) : ℚ) 600) / 600
        = (600 - min (t : ℚ) 600) / 600
    rw [ht]
    simp

/-- C8 witness: three predictions for vehicle id "a" with times 300, 120,
120; the dedup keeps the second one (smallest time, first of the tied
pair). -/
theorem C8_live_tier_dedup_witness :
    MapSim.EntrySpec
      [⟨some "a", some "victoria", some 300, some "loc"⟩,
       ⟨some "a", some "victoria", some 120, some "loc"⟩,
       ⟨some "a", some "victoria", some 120, some "loc2"⟩]
      "a" ⟨some "a", some "victoria", some 120, some "loc"⟩ :=
  C8_live_tier_dedup.2.1 _ _ _ (by decide)

/-- Element-wise characterisation of the `update_all` vehicle pass: lengths
are preserved, vehicles with an out-of-range `route_index` are returned
unchanged, and vehicles with a valid `route_index` are advanced by exactly
one `update_position` step. -/
lemma updateVehicles_spec (routes : List Route) (vs vs' : List Vehicle)
    (h : updateVehicles routes vs = some vs') :
    vs'.length = vs.length ∧
    ∀ (i : ℕ) (hi : i < vs.length) (hi' : i < vs'.length),
      (¬ (vs.get ⟨i, hi⟩).route_index < routes.length →
        vs'.get ⟨i, hi'⟩ = vs.get ⟨i, hi⟩)
      ∧ ∀ hr : (vs.get ⟨i, hi⟩).route_index < routes.length,
          (vs.get ⟨i, hi⟩).update_position
              (routes.get ⟨(vs.get ⟨i, hi⟩).route_index, hr⟩)
            = some (vs'.get ⟨i, hi'⟩) := by
  induction vs generalizing vs' with
  | nil =>
    simp only [updateVehicles, Option.some_inj] at h
    subst h
    exact ⟨rfl, fun i hi => absurd hi (Nat.not_lt_zero i)⟩
  | cons v vs ih =>
    simp only [updateVehicles] at h
    split at h
    · next w ws hw hws =>
      rw [Option.some_inj] at h
      subst h
      obtain ⟨hlen, hspec⟩ := ih ws hws
      refine ⟨by simp [hlen], ?_⟩
      intro i hi hi'
      cases i with
      | zero =>
        constructor
        · intro hnr
          have hnr' : ¬ v.route_index < routes.length := hnr
          rw [dif_neg hnr', Option.some_inj] at hw
          show w = v
          exact hw.symm
        · intro hr
          have hr' : v.route_index < routes.length := hr
          rw [dif_pos hr'] at hw
          show v.update_position (routes.get ⟨v.route_index, hr'⟩) = some w
          exact hw
      | succ j =>
        exact hspec j (Nat.lt_of_succ_lt_succ hi) (Nat.lt_of_succ_lt_succ hi')
    · next => cases h

/-- C10: a successful `SharedState::update_all` never reads the routes vector
out of bounds: the routes are unchanged, the vehicle count is unchanged,
every vehicle whose `route_index` is out of range is left completely
unchanged, and every vehicle with a valid `route_index` is advanced by
exactly one kinematic step against its own route. -/
theorem C10_update_all_safe (s s' : SharedState)
    (h : s.update_all = some s') :
    s'.routes = s.routes ∧ s'.vehicles.length = s.vehicles.length ∧
    ∀ (i : ℕ) (hi : i < s.vehicles.length) (hi' : i < s'.vehicles.length),
      (¬ (s.vehicles.get ⟨i, hi⟩).route_index < s.routes.length →
        s'.vehicles.get ⟨i, hi'⟩ = s.vehicles.get ⟨i, hi⟩)
      ∧ ∀ hr : (s.vehicles.get ⟨i, hi⟩).route_index < s.routes.length,
          (s.vehicles.get ⟨i, hi⟩).update_position
              (s.routes.get ⟨(s.vehicles.get ⟨i, hi⟩).route_index, hr⟩)
            = some (s'.vehicles.get ⟨i, hi'⟩) := by
  unfold SharedState.update_all at h
  cases hv : updateVehicles s.routes s.vehicles with
  | none => rw [hv] at h; cases h
  | some vs' =>
    rw [hv, Option.map_some', Option.some_inj] at h
    subst h
    obtain ⟨hlen, hspec⟩ := updateVehicles_spec s.routes s.vehicles vs' hv
    exact ⟨rfl, hlen, hspec⟩

/-- C10 witness: a two-vehicle state (one valid `route_index`, one stale) on
a one-route catalog; `update_all` succeeds, keeps the routes, skips the
stale vehicle unchanged and advances the valid one. -/
theorem C10_update_all_safe_witness :
    ({ routes := [⟨[(0, 0), (10, 0)]⟩],
       vehicles :=
         [{ vehicle_type := .Bus, route_index := 0, direction := 1,
            last_station := 0, next_station := 1, fraction := 3/4,
            speed := 1/4, x := 0 + (10 - 0) * (3/4),
            y := 0 + (0 - 0) * (3/4) },
          { vehicle_type := .Train, route_index := 5, direction := 1,
            last_station := 0, next_station := 1, fraction := 0,
            speed := 0, x := 0, y := 0 }],
       debug_mode := false } : SharedState).routes
      = [⟨[(0, 0), (10, 0)]⟩] := by
  have hpos : updateVehicles ([⟨[(0, 0), (10, 0)]⟩] : List Route)
      [{ vehicle_type := .Bus, route_index := 0, direction := 1,
         last_station := 0, next_station := 1, fraction := 1/2,
         speed := 1/4, x := 0, y := 0 },
       { vehicle_type := .Train, route_index := 5, direction := 1,
         last_station := 0, next_station := 1, fraction := 0,
         speed := 0, x := 0, y := 0 }] =
      some [{ vehicle_type := .Bus, route_index := 0, direction := 1,
              last_station := 0, next_station := 1, fraction := 3/4,
              speed := 1/4, x := 0 + (10 - 0) * (3/4),
              y := 0 + (0 - 0) * (3/4) },
            { vehicle_type := .Train, route_index := 5, direction := 1,
              last_station := 0, next_station := 1, fraction := 0,
              speed := 0, x := 0, y := 0 }] := by
    simp only [updateVehicles]
    rw [dif_pos (by norm_num), dif_neg (by norm_num)]
    rw [update_position_eq _ _ (3/4) 1 0 1 0 0 10 0
      (by rw [updateLoop_of_lt _ _ _ _ _ (by norm_num)]; norm_num)
      (by norm_num) (by norm_num)]
  have happ := C10_update_all_safe
    { routes := [⟨[(0, 0), (10, 0)]⟩],
      vehicles :=
        [{ vehicle_type := .Bus, route_index := 0, direction := 1,
           last_station := 0, next_station := 1, fraction := 1/2,
           speed := 1/4, x := 0, y := 0 },
         { vehicle_type := .Train, route_index := 5, direction := 1,
           last_station := 0, next_station := 1, fraction := 0,
           speed := 0, x := 0, y := 0 }],
      debug_mode := false }
    _ (by unfold SharedState.update_all; rw [hpos, Option.map_some'])
  exact happ.1

end Roundel
